import Mathlib

/-!
# Activity status and grade ledger of the school-management client

A shallow embedding of the decision logic of

* `src/frontend/src/pages/student/StudentActivities.js` (activity status),
* `src/frontend/src/pages/teacher/TeacherGrades.js` (grade ledger, commit, average),
* `src/frontend/src/pages/student/StudentGrades.js` (student average),

followed by theorems about it.

Conventions of the embedding:

* identifiers (`student_id`, `activity_id`, `id`) are JavaScript strings;
  a nullable identifier is an `Option String` (`none` is `null`);
* a `Date` is represented by its time value: `some ms` for a valid date,
  `none` for an invalid one (time value `NaN`);
* a JavaScript number that arrives in a JSON payload is a rational; the
  rounding of decimal literals and of sums to binary doubles is not
  represented;
* React state is an explicit record that every handler receives and returns.
-/

namespace StudentActivities

/-- A `Date` seen through its time value in milliseconds; `none` is the
time value `NaN` of an invalid date. -/
abbrev TimeValue := Option Int

/-- The relational `a > b` on two dates: both are converted to their time
values and a `NaN` on either side makes the comparison false. -/
def dateGt (a b : TimeValue) : Bool :=
  match a, b with
  | some x, some y => decide (y < x)
  | _, _ => false

/-- The relational `a < b` on two dates. -/
def dateLt (a b : TimeValue) : Bool :=
  match a, b with
  | some x, some y => decide (x < y)
  | _, _ => false

/-- The fields of an activity that the status depends on, after the two
`new Date(...)` conversions: `due` is `new Date(act.due_date)`, `start` is
`act.start_date ? new Date(act.start_date) : null`. -/
structure ActivityDates where
  start : Option TimeValue
  due : TimeValue
  deriving DecidableEq, Repr

/-- The `key` field of the object returned by `getActivityStatus`. -/
inductive StatusKey where
  | expired
  | upcoming
  | active
  deriving DecidableEq, Repr

/-- The string the source uses for each key. -/
def StatusKey.toString : StatusKey → String
  | .expired => "expired"
  | .upcoming => "upcoming"
  | .active => "active"

/-- The `label` field that goes with each key. -/
def StatusKey.label : StatusKey → String
  | .expired => "Bloqueada (Vencida)"
  | .upcoming => "No Disponible"
  | .active => "Activa"

/-- The function `getActivityStatus` of `StudentActivities.js`, with the clock reading
`now = new Date()` passed in. A date object is truthy, also an invalid one,
so `start && now < start` tests only that `start` is not `null`. -/
def getActivityStatus (act : ActivityDates) (now : Int) : StatusKey :=
  if dateGt (some now) act.due then .expired
  else if (match act.start with
           | some s => dateLt (some now) s
           | none => false) then .upcoming
  else .active

end StudentActivities

namespace TeacherGrades

/-! ## Ledger keys and persisted grades -/

/-- The expression `x || 'general'` on a nullable identifier: `null` and the
empty string are falsy, every other string is kept. -/
def orGeneral : Option String → String
  | none => "general"
  | some a => if a = "" then "general" else a

/-- The template literal that `getGrade`, `handleGradeChange` and `saveGrade`
all build as their first statement: the student identifier, a dash, and
`activityId || 'general'`. -/
def gradeKey (studentId : String) (activityId : Option String) : String :=
  studentId ++ "-" ++ orGeneral activityId

/-- A grade as the service returns it: the fields the page reads. -/
structure Grade where
  student_id : String
  course_id : String
  activity_id : Option String
  value : ℚ
  comments : String
  deriving DecidableEq

/-- What the grade input displays: the raw text of an unsaved edit (or the
empty string), or the number of a persisted grade. -/
inductive CellValue where
  | text (raw : String)
  | number (value : ℚ)
  deriving DecidableEq

/-- The three pieces of React state the ledger consists of: `grades`,
`editedGrades` (an object used as a map from key to raw input; a missing
property reads as `undefined`, here `none`) and `savingGrade`. Every key
the page builds contains a dash, so no inherited property of the object is
ever read. -/
structure Ledger where
  grades : List Grade
  editedGrades : String → Option String
  savingGrade : Option String

/-- The state right after the component mounts: `useState([])`,
`useState({})`, `useState(null)`. -/
def Ledger.initial : Ledger :=
  { grades := [], editedGrades := fun _ => none, savingGrade := none }

/-- The callback passed to `grades.find` in `getGrade`. -/
def matchesScope (studentId : String) (activityId : Option String) (g : Grade) : Bool :=
  g.student_id == studentId && orGeneral g.activity_id == orGeneral activityId

/-- The function `getGrade`: the overlay entry under the key when it is not
`undefined`, else the value of the first persisted grade that matches, else
the empty string. -/
def getGrade (st : Ledger) (studentId : String) (activityId : Option String) : CellValue :=
  match st.editedGrades (gradeKey studentId activityId) with
  | some raw => .text raw
  | none =>
    match st.grades.find? (matchesScope studentId activityId) with
    | some grade => .number grade.value
    | none => .text ""

/-- The function `handleGradeChange`: `{ ...prev, [key]: value }`. -/
def handleGradeChange (st : Ledger) (studentId : String) (activityId : Option String)
    (value : String) : Ledger :=
  { st with editedGrades := fun k =>
      if k = gradeKey studentId activityId then some value else st.editedGrades k }

/-! ## One table row, as rendered for the selected activity -/

/-- The row's `key`: the student identifier, a dash and `selectedActivity`
as it is, with no default. -/
def rowKey (studentId selectedActivity : String) : String :=
  studentId ++ "-" ++ selectedActivity

/-- The scope argument the row passes to `getGrade`, `handleGradeChange` and
`saveGrade`: `selectedActivity === 'general' ? null : selectedActivity`. -/
def scopeArg (selectedActivity : String) : Option String :=
  if selectedActivity = "general" then none else some selectedActivity

/-- The row's `isEdited`: `editedGrades[key] !== undefined`. -/
def isEdited (st : Ledger) (key : String) : Bool :=
  (st.editedGrades key).isSome

/-- The row's `isSaving`: `savingGrade === key`. -/
def isSaving (st : Ledger) (key : String) : Bool :=
  st.savingGrade == some key

/-- The `disabled` attribute of the row's save button. -/
def saveDisabled (st : Ledger) (key : String) : Bool :=
  !isEdited st key || isSaving st key

/-- The row's `currentValue`. -/
def currentValue (st : Ledger) (studentId selectedActivity : String) : CellValue :=
  getGrade st studentId (scopeArg selectedActivity)

/-- The row's `onChange` handler. -/
def rowChange (st : Ledger) (studentId selectedActivity raw : String) : Ledger :=
  handleGradeChange st studentId (scopeArg selectedActivity) raw

/-! ## The number read from a raw input -/

/-- The characters `parseFloat` skips at the front of its input: the white
space and line terminator code points of ECMAScript. -/
def isStrWhiteSpace (c : Char) : Bool :=
  decide (c.toNat ∈ [9, 10, 11, 12, 13, 32, 160, 0x1680, 0x2028, 0x2029, 0x202F, 0x205F, 0x3000, 0xFEFF])
    || (decide (0x2000 ≤ c.toNat) && decide (c.toNat ≤ 0x200A))

/-- What `parseFloat` finds at the front of a string: nothing numeric,
`Infinity` with a sign, or a decimal literal `± mantissa × 10 ^ exponent`. -/
inductive Scanned where
  | notNumeric
  | infinity (negative : Bool)
  | decimal (negative : Bool) (mantissa : Nat) (exponent : Int)
  deriving DecidableEq, Repr

/-- The number a run of decimal digits writes. -/
def digitsToNat (ds : List Char) : Nat :=
  ds.foldl (fun n c => 10 * n + (c.toNat - 48)) 0

/-- The longest run of decimal digits at the front, and the rest. -/
def takeDigits (cs : List Char) : List Char × List Char :=
  cs.span Char.isDigit

/-- The input with the given literal removed from its front, when it starts
with it. -/
def dropLiteral : List Char → List Char → Option (List Char)
  | [], cs => some cs
  | _ :: _, [] => none
  | l :: ls, c :: cs => if l = c then dropLiteral ls cs else none

/-- The exponent part `e`, `e+` or `e-` followed by digits; an `e` with no
digit after it is not part of the literal and counts as exponent zero. -/
def scanExponent (cs : List Char) : Int :=
  match cs with
  | c :: t =>
    if c = 'e' ∨ c = 'E' then
      let signed : Bool × List Char :=
        match t with
        | '+' :: u => (false, u)
        | '-' :: u => (true, u)
        | _ => (false, t)
      let ds := (takeDigits signed.2).1
      if ds.isEmpty then 0
      else if signed.1 then -(digitsToNat ds : Int) else (digitsToNat ds : Int)
    else 0
  | [] => 0

/-- The longest decimal literal at the front: digits, an optional dot with
optional digits, an optional exponent; at least one digit before or right
after the dot is required. -/
def scanUnsignedDecimal (negative : Bool) (cs : List Char) : Scanned :=
  let whole := takeDigits cs
  let frac : List Char × List Char :=
    match whole.2 with
    | '.' :: t => takeDigits t
    | _ => ([], whole.2)
  if whole.1.isEmpty && frac.1.isEmpty then .notNumeric
  else .decimal negative (digitsToNat (whole.1 ++ frac.1))
    (scanExponent frac.2 - (frac.1.length : Int))

/-- The scanning part of `parseFloat`: leading white space is dropped, a sign
is read, then `Infinity` or the longest decimal literal; whatever follows
the literal is ignored. -/
def scanFloat (input : String) : Scanned :=
  let cs := input.toList.dropWhile isStrWhiteSpace
  let signed : Bool × List Char :=
    match cs with
    | '+' :: t => (false, t)
    | '-' :: t => (true, t)
    | _ => (false, cs)
  match dropLiteral "Infinity".toList signed.2 with
  | some _ => .infinity signed.1
  | none => scanUnsignedDecimal signed.1 signed.2

/-- A JavaScript number as far as the page distinguishes them. -/
inductive JSNumber where
  | nan
  | posInf
  | negInf
  | fin (q : ℚ)
  deriving DecidableEq

/-- The global `parseFloat` applied to a property that may be `undefined`:
the argument is first converted to a string (`undefined` becomes the text
"undefined"). The value of a decimal literal is taken exactly. -/
def parseFloat (input : Option String) : JSNumber :=
  match scanFloat (input.getD "undefined") with
  | .notNumeric => .nan
  | .infinity negative => if negative then .negInf else .posInf
  | .decimal negative mantissa exponent =>
    if negative then .fin (-((mantissa : ℚ) * 10 ^ exponent))
    else .fin ((mantissa : ℚ) * 10 ^ exponent)

/-- The global `isNaN` on a number. -/
def JSNumber.isNaN : JSNumber → Bool
  | .nan => true
  | _ => false

/-- The comparison `value < bound` against a finite bound. -/
def JSNumber.ltBound : JSNumber → ℚ → Bool
  | .nan, _ => false
  | .posInf, _ => false
  | .negInf, _ => true
  | .fin q, bound => decide (q < bound)

/-- The comparison `value > bound` against a finite bound. -/
def JSNumber.gtBound : JSNumber → ℚ → Bool
  | .nan, _ => false
  | .posInf, _ => true
  | .negInf, _ => false
  | .fin q, bound => decide (bound < q)

/-- The guard of `saveGrade`: `isNaN(value) || value < 0 || value > 5`. -/
def rejected (value : JSNumber) : Bool :=
  value.isNaN || value.ltBound 0 || value.gtBound 5

/-! ## The commit `saveGrade` -/

/-- A request the page sends to the grade service. -/
inductive Request where
  | postGrades (student_id course_id : String) (activity_id : Option String)
      (value : JSNumber) (comments : String)
  | getGrades (course_id : String)
  deriving DecidableEq

/-- A transient notification. -/
inductive Toast where
  | error (message : String)
  | success (message : String)
  deriving DecidableEq

/-- How the two awaited requests of one `saveGrade` call end: the POST
rejects; the POST resolves and the GET rejects; both resolve and the GET
carries the grade list. -/
inductive ServiceReply where
  | postFails
  | getFails
  | refreshed (data : List Grade)

/-- The body of the POST: `activity_id` is
`activityId === 'general' ? null : activityId`, `comments` is empty. -/
def postBody (courseId studentId : String) (activityId : Option String)
    (value : JSNumber) : Request :=
  .postGrades studentId courseId (if activityId = some "general" then none else activityId)
    value ""

/-- The update `setSavingGrade(key)` that follows a passed validation. -/
def saveStarted (st : Ledger) (key : String) : Ledger :=
  { st with savingGrade := some key }

/-- The `finally` block alone, which is all that changes state when the
`try` block throws: `setSavingGrade(null)`. -/
def saveFailed (st : Ledger) : Ledger :=
  { st with savingGrade := none }

/-- The updates of a `try` block that runs to its end, then `finally`:
`setGrades(gRes.data)`, the deletion of `key` from the overlay,
`setSavingGrade(null)`. -/
def saveRefreshed (st : Ledger) (key : String) (data : List Grade) : Ledger :=
  { grades := data
    editedGrades := fun k => if k = key then none else st.editedGrades k
    savingGrade := none }

/-- The result of running `saveGrade` to its end. -/
structure SaveRun where
  state : Ledger
  requests : List Request
  toasts : List Toast

/-- The function `saveGrade`, run from a click to the end of its `finally`
block with no other event in between. -/
def saveGrade (courseId : String) (st : Ledger) (studentId : String)
    (activityId : Option String) (reply : ServiceReply) : SaveRun :=
  let key := gradeKey studentId activityId
  let value := parseFloat (st.editedGrades key)
  if rejected value then
    { state := st, requests := [], toasts := [.error "La nota debe estar entre 0 y 5"] }
  else
    let post := postBody courseId studentId activityId value
    match reply with
    | .postFails =>
      { state := saveFailed (saveStarted st key)
        requests := [post]
        toasts := [.error "Error guardando nota"] }
    | .getFails =>
      { state := saveFailed (saveStarted st key)
        requests := [post, .getGrades courseId]
        toasts := [.success "Nota guardada", .error "Error guardando nota"] }
    | .refreshed data =>
      { state := saveRefreshed (saveStarted st key) key data
        requests := [post, .getGrades courseId]
        toasts := [.success "Nota guardada"] }

/-! ## The average -/

/-- The integer `n` that `Number.prototype.toFixed` picks for one fraction
digit and a non-negative magnitude: the integer for which `n / 10` is
closest to the magnitude, the larger one at a tie. -/
def tenths (x : ℚ) : Nat :=
  (⌊|x| * 10 + 1 / 2⌋).toNat

/-- The call `x.toFixed(1)` for a finite `x` below `10 ^ 21` in magnitude: a
minus sign when `x < 0`, the digits of `n` with a dot before the last one. -/
def toFixed1 (x : ℚ) : String :=
  (if x < 0 then "-" else "") ++ Nat.repr (tenths x / 10) ++ "." ++ Nat.repr (tenths x % 10)

/-- The function `getStudentAverage`. -/
def getStudentAverage (st : Ledger) (studentId : String) : String :=
  let studentGrades := st.grades.filter (fun g => g.student_id == studentId)
  if studentGrades.length = 0 then "-"
  else
    let avg := studentGrades.foldl (fun sum g => sum + g.value) 0 / (studentGrades.length : ℚ)
    toFixed1 avg

/-! ## The page as a transition system -/

/-- A call of `saveGrade` that has passed validation and has not reached
its `finally` block: the key it computed, and whether its POST has
resolved (so that it now awaits the GET). -/
structure InFlight where
  key : String
  posted : Bool
  deriving DecidableEq

/-- The grading page between two events. -/
structure Page where
  ledger : Ledger
  selectedActivity : String
  inFlight : List InFlight

/-- The page after mounting: nothing edited, `selectedActivity` is
`'general'`, no call in flight. -/
def Page.initial : Page :=
  { ledger := Ledger.initial, selectedActivity := "general", inFlight := [] }

/-- What can happen to the page. -/
inductive Event where
  | select (activity : String)
  | change (studentId raw : String)
  | click (studentId : String)
  | postSettled (call : Nat) (ok : Bool)
  | getSettled (call : Nat) (data : Option (List Grade))

/-- One event: a selection, a change of a row's input, a click on a row's
save button (ignored by the browser when the button is disabled), or the
settling of an awaited request of a call in flight. -/
def Page.step (p : Page) : Event → Page
  | .select activity => { p with selectedActivity := activity }
  | .change studentId raw =>
    { p with ledger := rowChange p.ledger studentId p.selectedActivity raw }
  | .click studentId =>
    if saveDisabled p.ledger (rowKey studentId p.selectedActivity) then p
    else
      let key := gradeKey studentId (scopeArg p.selectedActivity)
      if rejected (parseFloat (p.ledger.editedGrades key)) then p
      else { p with ledger := saveStarted p.ledger key
                    inFlight := p.inFlight ++ [{ key := key, posted := false }] }
  | .postSettled call ok =>
    match p.inFlight.get? call with
    | none => p
    | some c =>
      if c.posted then p
      else if ok then { p with inFlight := p.inFlight.set call { c with posted := true } }
      else { p with ledger := saveFailed p.ledger, inFlight := p.inFlight.eraseIdx call }
  | .getSettled call data =>
    match p.inFlight.get? call with
    | none => p
    | some c =>
      if !c.posted then p
      else
        match data with
        | some d =>
          { p with ledger := saveRefreshed p.ledger c.key d
                   inFlight := p.inFlight.eraseIdx call }
        | none => { p with ledger := saveFailed p.ledger, inFlight := p.inFlight.eraseIdx call }

/-- The page after a sequence of events. -/
def Page.run (p : Page) (events : List Event) : Page :=
  events.foldl Page.step p

/-- A commit for `key` is in flight. -/
def Page.committing (p : Page) (key : String) : Bool :=
  p.inFlight.any (fun c => c.key == key)

end TeacherGrades

namespace StudentGrades

open TeacherGrades

end StudentGrades

namespace StudentActivities

open TeacherGrades (isStrWhiteSpace)

/-! ## Submissions and the activity row -/

/-- An uploaded file as the page keeps it: a stored name and a link. -/
structure FileRef where
  name : String
  url : String
  deriving DecidableEq, Repr

/-- A submission as the service returns it. -/
structure Submission where
  id : String
  activity_id : String
  student_id : String
  content : String
  files : List FileRef
  deriving DecidableEq, Repr

/-- An activity as the service returns it: the fields the pages read, the two
dates already converted by `new Date(...)`. -/
structure Activity where
  id : String
  title : String
  dates : ActivityDates
  deriving DecidableEq, Repr

/-- The function `hasSubmission`:
`submissions.find(s => s.activity_id === actId)`, `none` for `undefined`. -/
def hasSubmission (submissions : List Submission) (actId : String) : Option Submission :=
  submissions.find? (fun s => s.activity_id == actId)

/-- The divisor `1000 * 60 * 60 * 24`: the milliseconds of one day. -/
def msPerDay : Int := 1000 * 60 * 60 * 24

/-- The expression `Math.ceil((t - now) / (1000 * 60 * 60 * 24))` for a date
`t`: `none` is `NaN`, the result for an invalid date. The quotient is taken
exactly. -/
def ceilDays (t : TimeValue) (now : Int) : Option Int :=
  t.map (fun ms => ⌈((ms - now : Int) : ℚ) / (msPerDay : ℚ)⌉)

/-- What the right-hand side of an activity card holds. -/
inductive RowAction where
  | delivered
  | submit
  | statusBadge (label : String)
  deriving DecidableEq, Repr

/-- What one activity card shows, as far as it depends on dates and
submissions: the status, the constant `daysLeft`, the number in the
"días restantes" line when that line is rendered, the number in the
"Disponible en" line when that line is rendered, and the action. -/
structure RowView where
  status : StatusKey
  daysLeft : Option Int
  remaining : Option Int
  availableIn : Option (Option Int)
  action : RowAction
  deriving DecidableEq, Repr

/-- The body of `activities.map((act) => ...)`. The clock is read twice:
by `getActivityStatus` (`statusNow`) and then by the body's own
`const now = new Date()` (`now`). A comparison with `NaN` is false, so the
"días restantes" line needs `daysLeft` to be a number above zero. -/
def renderRow (submissions : List Submission) (act : Activity) (statusNow now : Int) :
    RowView :=
  let status := getActivityStatus act.dates statusNow
  let daysLeft := ceilDays act.dates.due now
  let submission := hasSubmission submissions act.id
  { status := status
    daysLeft := daysLeft
    remaining :=
      match daysLeft with
      | some d => if status = .active ∧ 0 < d then some d else none
      | none => none
    availableIn :=
      match act.dates.start with
      | some start => if status = .upcoming then some (ceilDays start now) else none
      | none => none
    action :=
      match submission with
      | some _ => .delivered
      | none => if status = .active then .submit else .statusBadge status.label }

/-! ## The submit dialog -/

/-- The method `String.prototype.trim`: white space and line terminators are
removed from both ends. -/
def trim (s : String) : String :=
  String.mk ((s.toList.dropWhile isStrWhiteSpace).reverse.dropWhile isStrWhiteSpace).reverse

/-- The pieces of React state `handleSubmit` reads and writes. -/
structure SubmitState where
  submitDialog : Option Activity
  submitContent : String
  submitFiles : List FileRef
  submitting : Bool
  deriving DecidableEq, Repr

/-- A call the dialog makes: the POST of a submission, or `fetchData()`. -/
inductive SubmitRequest where
  | postSubmissions (activity_id content : String) (files : List FileRef)
  | fetchData
  deriving DecidableEq, Repr

/-- A transient notification of the student page. -/
inductive SubmitToast where
  | error (message : String)
  | success (message : String)
  deriving DecidableEq, Repr

/-- How the awaited POST ends: it resolves, or it rejects with the optional
`err.response.data.detail`. -/
inductive PostReply where
  | ok
  | failed (detail : Option String)
  deriving DecidableEq, Repr

/-- The result of running `handleSubmit` to its end. -/
structure SubmitRun where
  state : SubmitState
  requests : List SubmitRequest
  toasts : List SubmitToast
  deriving DecidableEq, Repr

/-- The expression `detail || 'Error entregando actividad'`. -/
def errorMessage : Option String → String
  | some d => if d = "" then "Error entregando actividad" else d
  | none => "Error entregando actividad"

/-- The function `handleSubmit`, run from the click to the end of its
`finally` block. With `submitDialog` null the argument `submitDialog.id`
throws inside `try` before the POST is made. -/
def handleSubmit (st : SubmitState) (reply : PostReply) : SubmitRun :=
  if trim st.submitContent = "" ∧ st.submitFiles.length = 0 then
    { state := st, requests := []
      toasts := [.error "Escribe una respuesta o adjunta archivos"] }
  else
    match st.submitDialog with
    | none =>
      { state := { st with submitting := false }, requests := []
        toasts := [.error (errorMessage none)] }
    | some act =>
      let post := SubmitRequest.postSubmissions act.id st.submitContent st.submitFiles
      match reply with
      | .ok =>
        { state := { submitDialog := none, submitContent := "", submitFiles := []
                     submitting := false }
          requests := [post, .fetchData]
          toasts := [.success "Actividad entregada exitosamente"] }
      | .failed detail =>
        { state := { st with submitting := false }
          requests := [post]
          toasts := [.error (errorMessage detail)] }

end StudentActivities

namespace StudentGrades

open StudentActivities (Activity)

/-! ## Name resolvers -/

/-- A course as the service returns it: the fields the page reads. -/
structure Course where
  id : String
  name : String
  deriving DecidableEq, Repr

/-- The expression `value || fallback` on an optional string: `undefined`
and the empty string are falsy. -/
def orFallback (value : Option String) (fallback : String) : String :=
  match value with
  | some v => if v = "" then fallback else v
  | none => fallback

/-- The function `getCourseName`: `courses.find(c => c.id === id)?.name || '-'`. -/
def getCourseName (courses : List Course) (id : String) : String :=
  orFallback ((courses.find? (fun c => c.id == id)).map Course.name) "-"

/-- The function `getActivityName`:
`activities.find(a => a.id === id)?.title || 'Nota General'`; the argument is
a grade's `activity_id`, which may be `null`. -/
def getActivityName (activities : List Activity) (id : Option String) : String :=
  orFallback ((activities.find? (fun a => some a.id == id)).map Activity.title)
    "Nota General"

end StudentGrades

/-! # Theorems -/

namespace StudentActivities

/-- Claim C1. `getActivityStatus` returns exactly one of the three keys, for
every optional start, every due date and every clock reading: `expired`
exactly when `now > due`; `upcoming` exactly when `now > due` fails, a start
is present and `now < start`; `active` in every other case. At `now = due`
the activity is not expired and is active when its start is not after its
due date; at `now = start` with `now ≤ due` it is active, not upcoming. -/
theorem getActivityStatus_three_way (start : Option TimeValue) (due : TimeValue)
    (now : Int) :
    (getActivityStatus ⟨start, due⟩ now = .expired ∨
      getActivityStatus ⟨start, due⟩ now = .upcoming ∨
      getActivityStatus ⟨start, due⟩ now = .active) ∧
    (getActivityStatus ⟨start, due⟩ now = .expired ↔ ∃ d, due = some d ∧ d < now) ∧
    (getActivityStatus ⟨start, due⟩ now = .upcoming ↔
      (¬ ∃ d, due = some d ∧ d < now) ∧ ∃ s, start = some (some s) ∧ now < s) ∧
    (getActivityStatus ⟨start, due⟩ now = .active ↔
      (¬ ∃ d, due = some d ∧ d < now) ∧ ¬ ∃ s, start = some (some s) ∧ now < s) ∧
    getActivityStatus ⟨start, some now⟩ now ≠ .expired ∧
    ((∀ s, start = some (some s) → s ≤ now) →
      getActivityStatus ⟨start, some now⟩ now = .active) ∧
    (∀ d : Int, now ≤ d →
      getActivityStatus ⟨some (some now), some d⟩ now = .active) := by
  refine ⟨?_, ?_, ?_, ?_, ?_, ?_, ?_⟩
  · cases h : getActivityStatus ⟨start, due⟩ now <;> simp
  · rcases due with _ | d <;> simp [getActivityStatus, dateGt]
    · split <;> simp
    · by_cases h : d < now <;> simp [h]
      split <;> simp <;> omega
  · rcases due with _ | d
    · rcases start with _ | _ | s <;> simp [getActivityStatus, dateGt, dateLt]
    · by_cases h : d < now
      · simp [getActivityStatus, dateGt, h]
      · rcases start with _ | _ | s <;> simp [getActivityStatus, dateGt, dateLt, h]
  · rcases due with _ | d
    · rcases start with _ | _ | s <;> simp [getActivityStatus, dateGt, dateLt]
    · by_cases h : d < now
      · simp [getActivityStatus, dateGt, h]
      · rcases start with _ | _ | s <;> simp [getActivityStatus, dateGt, dateLt, h]
  · rcases start with _ | _ | s <;> simp [getActivityStatus, dateGt, dateLt]
    split <;> simp
  · intro h
    rcases start with _ | _ | s
    · simp [getActivityStatus, dateGt, dateLt]
    · simp [getActivityStatus, dateGt, dateLt]
    · have := h s rfl
      simp [getActivityStatus, dateGt, dateLt]
      omega
  · intro d h
    simp [getActivityStatus, dateGt, dateLt]
    omega

end StudentActivities

namespace TeacherGrades

/-! ## Reading and writing the ledger -/

theorem matchesScope_iff (s : String) (a : Option String) (g : Grade) :
    matchesScope s a g = true ↔
      g.student_id = s ∧ orGeneral g.activity_id = orGeneral a := by
  simp [matchesScope]

theorem getGrade_of_unique_match (st : Ledger) (s : String) (a : Option String)
    (h : st.editedGrades (gradeKey s a) = none) (g : Grade) (hg : g ∈ st.grades)
    (hm : matchesScope s a g = true)
    (huniq : ∀ h ∈ st.grades, matchesScope s a h = true → h = g) :
    getGrade st s a = .number g.value := by
  cases hf : st.grades.find? (matchesScope s a) with
  | none =>
    rw [List.find?_eq_none] at hf
    exact absurd hm (hf g hg)
  | some g' =>
    have h1 := List.find?_some hf
    have h2 := List.mem_of_find?_eq_some hf
    have : g' = g := huniq g' h2 h1
    subst this
    simp [getGrade, h, hf]

/-- Claim C2. `getGrade` returns the overlay entry under the key of
(student, scope) when there is one; with no overlay entry it returns the
value of the first persisted grade that matches (student, scope), so the
value of the only matching grade when there is just one, also when that
value is 0; with neither it returns the empty string. -/
theorem getGrade_overlay_then_persisted (st : Ledger) (s : String) (a : Option String) :
    (∀ raw, st.editedGrades (gradeKey s a) = some raw → getGrade st s a = .text raw) ∧
    (st.editedGrades (gradeKey s a) = none →
      ∀ pre g post, st.grades = pre ++ g :: post →
        (∀ h ∈ pre, matchesScope s a h = false) → matchesScope s a g = true →
        getGrade st s a = .number g.value) ∧
    (st.editedGrades (gradeKey s a) = none →
      ∀ g ∈ st.grades, matchesScope s a g = true →
        (∀ h ∈ st.grades, matchesScope s a h = true → h = g) →
        getGrade st s a = .number g.value) ∧
    (st.editedGrades (gradeKey s a) = none →
      (∀ g ∈ st.grades, matchesScope s a g = false) → getGrade st s a = .text "") ∧
    (∀ c, getGrade { grades := [⟨s, c, a, 0, ""⟩], editedGrades := fun _ => none,
                     savingGrade := none } s a = .number 0) := by
  refine ⟨?_, ?_, ?_, ?_, ?_⟩
  · intro raw h
    simp [getGrade, h]
  · intro h pre g post hg hpre hm
    have hf : st.grades.find? (matchesScope s a) = some g := by
      rw [List.find?_eq_some]
      exact ⟨hm, pre, post, hg, fun x hx => by simp [hpre x hx]⟩
    simp [getGrade, h, hf]
  · intro h g hg hm huniq
    exact getGrade_of_unique_match st s a h g hg hm huniq
  · intro h hnone
    have hf : st.grades.find? (matchesScope s a) = none := by
      rw [List.find?_eq_none]
      intro x hx
      simp [hnone x hx]
    simp [getGrade, h, hf]
  · intro c
    simp [getGrade, matchesScope]


theorem string_append_left_cancel {s a b : String} (h : s ++ a = s ++ b) : a = b := by
  have h' := congrArg String.data h
  simp only [String.data_append] at h'
  exact String.ext (List.append_cancel_left h')

theorem orGeneral_scopeArg (sel : String) (h : sel ≠ "") :
    orGeneral (scopeArg sel) = sel := by
  unfold scopeArg
  split
  · next hg => simp [orGeneral, hg]
  · simp [orGeneral, h]

/-- For a non-empty selection the key the row renders with is the key the
handlers build. -/
theorem rowKey_eq_gradeKey (s sel : String) (h : sel ≠ "") :
    rowKey s sel = gradeKey s (scopeArg sel) := by
  simp [rowKey, gradeKey, orGeneral_scopeArg sel h]

theorem getGrade_handleGradeChange (st : Ledger) (s : String) (a : Option String)
    (raw : String) : getGrade (handleGradeChange st s a raw) s a = .text raw := by
  simp [getGrade, handleGradeChange]

/-- Claim C3, as stated, fails when the selected activity is the empty
string: the handler writes under the key ending in `general`, the row
looks its dirty flag up under the key ending in the dash, and the row is
not dirty after the write although the read returns the raw input. -/
theorem rowChange_empty_selection_not_dirty :
    getGrade (rowChange Ledger.initial "s1" "" "4.5") "s1" (scopeArg "") = .text "4.5" ∧
    isEdited (rowChange Ledger.initial "s1" "" "4.5") (rowKey "s1" "") = false := by
  refine ⟨getGrade_handleGradeChange _ _ _ _, ?_⟩
  have hk : rowKey "s1" "" ≠ gradeKey "s1" (scopeArg "") := by decide
  simp [isEdited, rowChange, handleGradeChange, hk, Ledger.initial]

/-- Claim C3, amended. For every student, every scope and every raw input,
the read after `handleGradeChange` returns exactly the raw input, whatever
the persisted grades are; and for every selected activity other than the
empty string the row's dirty flag is true after the row's change handler
ran, and in any state that flag is true exactly when the overlay has an
entry under the key the write uses. -/
theorem handleGradeChange_read_and_dirty (st : Ledger) (s sel raw : String)
    (hsel : sel ≠ "") :
    (∀ a : Option String, getGrade (handleGradeChange st s a raw) s a = .text raw) ∧
    currentValue (rowChange st s sel raw) s sel = .text raw ∧
    isEdited (rowChange st s sel raw) (rowKey s sel) = true ∧
    (∀ st' : Ledger, isEdited st' (rowKey s sel) = true ↔
      st'.editedGrades (gradeKey s (scopeArg sel)) ≠ none) := by
  refine ⟨fun a => getGrade_handleGradeChange st s a raw, ?_, ?_, ?_⟩
  · exact getGrade_handleGradeChange st s (scopeArg sel) raw
  · simp [isEdited, rowChange, handleGradeChange, rowKey_eq_gradeKey s sel hsel]
  · intro st'
    rw [rowKey_eq_gradeKey s sel hsel]
    cases h : st'.editedGrades (gradeKey s (scopeArg sel)) <;> simp [isEdited, h]

/-- The amended C3 at student `s1`, the general scope and the out-of-range
text `7x`, over a ledger that holds no grade. -/
theorem handleGradeChange_read_and_dirty_witness :
    "general" ≠ "" ∧
    currentValue (rowChange Ledger.initial "s1" "general" "7x") "s1" "general" = .text "7x" ∧
    isEdited (rowChange Ledger.initial "s1" "general" "7x") (rowKey "s1" "general") = true :=
  ⟨by decide,
   (handleGradeChange_read_and_dirty Ledger.initial "s1" "general" "7x" (by decide)).2.1,
   (handleGradeChange_read_and_dirty Ledger.initial "s1" "general" "7x" (by decide)).2.2.1⟩

/-- Claim C4, as stated, fails for the activity identifier `general`: its
key is the key of the general scope, a grade persisted for it is the grade
the general scope reads, and an edit of the general grade is what the read
for that activity returns. -/
theorem gradeKey_general_collision :
    gradeKey "s1" (some "general") = gradeKey "s1" none ∧
    matchesScope "s1" none ⟨"s1", "c1", some "general", 3, ""⟩ = true ∧
    getGrade (handleGradeChange Ledger.initial "s1" none "4.5") "s1" (some "general")
      = .text "4.5" := by
  refine ⟨by decide, by decide, ?_⟩
  have hk : gradeKey "s1" (some "general") = gradeKey "s1" none := by decide
  simp [getGrade, handleGradeChange, hk]

/-- Claim C4, amended. For every student and every activity identifier
other than `general` and the empty string, the ledger key of the general
scope and the key of that activity differ, no persisted grade matches
both scopes, and a write to either scope leaves the read of the other
scope as it was. -/
theorem general_and_activity_independent (s act : String)
    (hg : act ≠ "general") (he : act ≠ "") :
    gradeKey s none ≠ gradeKey s (some act) ∧
    (∀ g : Grade, ¬ (matchesScope s none g = true ∧ matchesScope s (some act) g = true)) ∧
    (∀ (st : Ledger) (raw : String),
      getGrade (handleGradeChange st s none raw) s (some act) = getGrade st s (some act)) ∧
    (∀ (st : Ledger) (raw : String),
      getGrade (handleGradeChange st s (some act) raw) s none = getGrade st s none) := by
  have hk : gradeKey s none ≠ gradeKey s (some act) := by
    intro h
    simp only [gradeKey, orGeneral, he, if_false, String.append_assoc] at h
    exact hg (string_append_left_cancel (string_append_left_cancel h)).symm
  refine ⟨hk, ?_, ?_, ?_⟩
  · rintro g ⟨h1, h2⟩
    rw [matchesScope_iff] at h1 h2
    have : orGeneral none = orGeneral (some act) := h1.2.symm.trans h2.2
    simp [orGeneral, he] at this
    exact hg this.symm
  · intro st raw
    simp [getGrade, handleGradeChange, Ne.symm hk]
  · intro st raw
    simp [getGrade, handleGradeChange, hk]

/-- The amended C4 at student `s1` and activity `a1`. -/
theorem general_and_activity_independent_witness :
    "a1" ≠ "general" ∧ "a1" ≠ "" ∧ gradeKey "s1" none ≠ gradeKey "s1" (some "a1") :=
  ⟨by decide, by decide,
   (general_and_activity_independent "s1" "a1" (by decide) (by decide)).1⟩


/-! ## Validation in `saveGrade` -/

theorem rejected_eq_false_iff (v : JSNumber) :
    rejected v = false ↔ ∃ q : ℚ, v = .fin q ∧ 0 ≤ q ∧ q ≤ 5 := by
  cases v <;> simp [rejected, JSNumber.isNaN, JSNumber.ltBound, JSNumber.gtBound]

theorem parseFloat_undefined : parseFloat none = .nan := by
  have h : scanFloat "undefined" = .notNumeric := by decide
  simp [parseFloat, h]

theorem parseFloat_5_1 : parseFloat (some "5.1") = .fin (51 / 10) := by
  have h : scanFloat "5.1" = .decimal false 51 (-1) := by decide
  simp [parseFloat, h]
  norm_num

theorem parseFloat_4_5 : parseFloat (some "4.5") = .fin (9 / 2) := by
  have h : scanFloat "4.5" = .decimal false 45 (-1) := by decide
  simp [parseFloat, h]
  norm_num

/-- A grade stored from the body of the upsert, for the same student and with
the `activity_id` the body carries, matches the scope it was saved for. -/
theorem postBody_matchesScope (s : String) (a : Option String) (g : Grade)
    (hs : g.student_id = s)
    (ha : g.activity_id = if a = some "general" then none else a) :
    matchesScope s a g = true := by
  rw [matchesScope_iff]
  refine ⟨hs, ?_⟩
  rw [ha]
  split
  · next h => subst h; simp [orGeneral]
  · rfl

/-- Claim C6. When `saveGrade` rejects its input at validation, the state
it leaves is the state it found: the overlay with every entry, the rejected
key's raw value included, the persisted grade list and `savingGrade` are
unchanged, and no request is issued. -/
theorem saveGrade_rejected_unchanged (c : String) (st : Ledger) (s : String)
    (a : Option String) (reply : ServiceReply)
    (h : rejected (parseFloat (st.editedGrades (gradeKey s a))) = true) :
    (saveGrade c st s a reply).state = st ∧
    (saveGrade c st s a reply).state.editedGrades = st.editedGrades ∧
    (saveGrade c st s a reply).state.grades = st.grades ∧
    (saveGrade c st s a reply).state.savingGrade = st.savingGrade ∧
    (saveGrade c st s a reply).requests = [] := by
  simp [saveGrade, h]

/-- Claim C6 at the raw value `5.1` typed for student `s1` in the general
scope while another key is marked as saving. -/
theorem saveGrade_rejected_unchanged_witness :
    rejected (parseFloat ((handleGradeChange
        { grades := [], editedGrades := fun _ => none, savingGrade := some "s2-general" }
        "s1" none "5.1").editedGrades (gradeKey "s1" none))) = true ∧
    (saveGrade "c1" (handleGradeChange
        { grades := [], editedGrades := fun _ => none, savingGrade := some "s2-general" }
        "s1" none "5.1") "s1" none (.refreshed [])).state.savingGrade = some "s2-general" ∧
    (saveGrade "c1" (handleGradeChange
        { grades := [], editedGrades := fun _ => none, savingGrade := some "s2-general" }
        "s1" none "5.1") "s1" none (.refreshed [])).requests = [] :=
  have h : rejected (parseFloat ((handleGradeChange
      { grades := [], editedGrades := fun _ => none, savingGrade := some "s2-general" }
      "s1" none "5.1").editedGrades (gradeKey "s1" none))) = true := by
    simp [handleGradeChange, parseFloat_5_1, rejected, JSNumber.isNaN, JSNumber.ltBound,
      JSNumber.gtBound]
    norm_num
  ⟨h, (saveGrade_rejected_unchanged "c1" _ "s1" none (.refreshed []) h).2.2.2.1,
    (saveGrade_rejected_unchanged "c1" _ "s1" none (.refreshed []) h).2.2.2.2⟩

/-- Claim C7. After a `saveGrade` for (student, scope) whose upsert and
re-fetch both succeed, the overlay is the previous overlay with exactly
that key removed: the key is not dirty and every other key reads as
before; the persisted grade list is the re-fetched list; and when that list
holds the upserted grade as its only grade for (student, scope), `getGrade`
for (student, scope) returns the committed number. -/
theorem saveGrade_success (c : String) (st : Ledger) (s : String)
    (a : Option String) (data : List Grade) (v : ℚ)
    (hv : parseFloat (st.editedGrades (gradeKey s a)) = .fin v)
    (h0 : 0 ≤ v) (h5 : v ≤ 5) :
    (saveGrade c st s a (.refreshed data)).requests =
      [postBody c s a (.fin v), .getGrades c] ∧
    (saveGrade c st s a (.refreshed data)).state.editedGrades =
      (fun k => if k = gradeKey s a then none else st.editedGrades k) ∧
    isEdited (saveGrade c st s a (.refreshed data)).state (gradeKey s a) = false ∧
    (∀ k, k ≠ gradeKey s a →
      (saveGrade c st s a (.refreshed data)).state.editedGrades k = st.editedGrades k) ∧
    (saveGrade c st s a (.refreshed data)).state.grades = data ∧
    (saveGrade c st s a (.refreshed data)).state.savingGrade = none ∧
    (∀ g ∈ data, g.student_id = s →
      g.activity_id = (if a = some "general" then none else a) → g.value = v →
      (∀ h ∈ data, matchesScope s a h = true → h = g) →
      getGrade (saveGrade c st s a (.refreshed data)).state s a = .number v) := by
  have hr : rejected (parseFloat (st.editedGrades (gradeKey s a))) = false := by
    rw [rejected_eq_false_iff]; exact ⟨v, hv, h0, h5⟩
  have hst : (saveGrade c st s a (.refreshed data)).state =
      saveRefreshed (saveStarted st (gradeKey s a)) (gradeKey s a) data := by
    simp [saveGrade, hr]
  have hr' : rejected (JSNumber.fin v) = false := by rw [← hv]; exact hr
  refine ⟨?_, ?_, ?_, ?_, ?_, ?_, ?_⟩
  · simp [saveGrade, hv, hr']
  · rw [hst]; rfl
  · rw [hst]; simp [isEdited, saveRefreshed]
  · intro k hk
    rw [hst]; simp [saveRefreshed, saveStarted, hk]
  · rw [hst]; rfl
  · rw [hst]; rfl
  · intro g hg hs ha hval huniq
    rw [hst]
    have hm := postBody_matchesScope s a g hs ha
    rw [← hval]
    exact getGrade_of_unique_match
      (saveRefreshed (saveStarted st (gradeKey s a)) (gradeKey s a) data) s a
      (by simp [saveRefreshed]) g hg hm huniq


/-- Claim C7 at the commit of `4.5` for student `s1` in the general scope:
the re-fetched list holds the upserted grade, the read returns 4.5 and the
key is no longer dirty. -/
theorem saveGrade_success_witness :
    parseFloat ((handleGradeChange Ledger.initial "s1" none "4.5").editedGrades
      (gradeKey "s1" none)) = .fin (9 / 2) ∧
    (0 : ℚ) ≤ 9 / 2 ∧ (9 / 2 : ℚ) ≤ 5 ∧
    isEdited (saveGrade "c1" (handleGradeChange Ledger.initial "s1" none "4.5") "s1" none
      (.refreshed [⟨"s1", "c1", none, 9 / 2, ""⟩])).state (gradeKey "s1" none) = false ∧
    getGrade (saveGrade "c1" (handleGradeChange Ledger.initial "s1" none "4.5") "s1" none
      (.refreshed [⟨"s1", "c1", none, 9 / 2, ""⟩])).state "s1" none = .number (9 / 2) :=
  have hv : parseFloat ((handleGradeChange Ledger.initial "s1" none "4.5").editedGrades
      (gradeKey "s1" none)) = .fin (9 / 2) := by
    simp [handleGradeChange, parseFloat_4_5]
  have h0 : (0 : ℚ) ≤ 9 / 2 := by norm_num
  have h5 : (9 / 2 : ℚ) ≤ 5 := by norm_num
  ⟨hv, h0, h5,
    (saveGrade_success "c1" _ "s1" none [⟨"s1", "c1", none, 9 / 2, ""⟩] (9 / 2)
      hv h0 h5).2.2.1,
    (saveGrade_success "c1" _ "s1" none [⟨"s1", "c1", none, 9 / 2, ""⟩] (9 / 2)
      hv h0 h5).2.2.2.2.2.2 ⟨"s1", "c1", none, 9 / 2, ""⟩ (by simp) rfl (by simp) rfl
      (by intro h hh _; simpa using hh)⟩

/-- Claim C8. When validation passes and the upsert fails, or the upsert
succeeds and the re-fetch fails, `saveGrade` leaves the overlay exactly as
it was, the edited key still present and dirty, leaves the persisted grade
list as it was, resets `savingGrade` to `null`, and has issued the upsert
once and the re-fetch at most once, with no second attempt. -/
theorem saveGrade_failure (c : String) (st : Ledger) (s : String)
    (a : Option String) (reply : ServiceReply)
    (hfail : reply = .postFails ∨ reply = .getFails)
    (hr : rejected (parseFloat (st.editedGrades (gradeKey s a))) = false) :
    (saveGrade c st s a reply).state.editedGrades = st.editedGrades ∧
    isEdited (saveGrade c st s a reply).state (gradeKey s a) = true ∧
    (saveGrade c st s a reply).state.grades = st.grades ∧
    (saveGrade c st s a reply).state.savingGrade = none ∧
    ((saveGrade c st s a reply).requests =
        [postBody c s a (parseFloat (st.editedGrades (gradeKey s a)))] ∨
      (saveGrade c st s a reply).requests =
        [postBody c s a (parseFloat (st.editedGrades (gradeKey s a))), .getGrades c]) := by
  have hsome : isEdited st (gradeKey s a) = true := by
    cases h : st.editedGrades (gradeKey s a) with
    | none =>
      rw [h, parseFloat_undefined] at hr
      simp [rejected, JSNumber.isNaN] at hr
    | some raw => simp [isEdited, h]
  rcases hfail with h | h <;> subst h <;>
    simp [saveGrade, hr, saveFailed, saveStarted] <;> exact hsome

/-- Claim C8 at the raw value `4.5` of student `s1` in the general scope,
with the upsert accepted and the re-fetch failing. -/
theorem saveGrade_failure_witness :
    rejected (parseFloat ((handleGradeChange Ledger.initial "s1" none "4.5").editedGrades
      (gradeKey "s1" none))) = false ∧
    (saveGrade "c1" (handleGradeChange Ledger.initial "s1" none "4.5") "s1" none
      .getFails).state.editedGrades
      = (handleGradeChange Ledger.initial "s1" none "4.5").editedGrades ∧
    (saveGrade "c1" (handleGradeChange Ledger.initial "s1" none "4.5") "s1" none
      .getFails).state.savingGrade = none :=
  have hr : rejected (parseFloat ((handleGradeChange Ledger.initial "s1" none
      "4.5").editedGrades (gradeKey "s1" none))) = false := by
    rw [rejected_eq_false_iff]
    exact ⟨9 / 2, by simp [handleGradeChange, parseFloat_4_5], by norm_num, by norm_num⟩
  ⟨hr, (saveGrade_failure "c1" _ "s1" none .getFails (Or.inr rfl) hr).1,
    (saveGrade_failure "c1" _ "s1" none .getFails (Or.inr rfl) hr).2.2.2.1⟩


/-! ## Commits in flight -/

theorem parseFloat_4 : parseFloat (some "4") = .fin 4 := by
  have h : scanFloat "4" = .decimal false 4 0 := by decide
  simp [parseFloat, h]

theorem parseFloat_3 : parseFloat (some "3") = .fin 3 := by
  have h : scanFloat "3" = .decimal false 3 0 := by decide
  simp [parseFloat, h]

theorem rejected_fin_4 : rejected (.fin 4) = false := by
  rw [rejected_eq_false_iff]; exact ⟨4, rfl, by norm_num, by norm_num⟩

theorem rejected_fin_3 : rejected (.fin 3) = false := by
  rw [rejected_eq_false_iff]; exact ⟨3, rfl, by norm_num, by norm_num⟩

/-- Claim C9 on the code: two rows are edited and saved one after the other
while the first commit is still in flight. The second click overwrites
`savingGrade`, so the first row's commit is in flight, the row is dirty and
its save button is enabled; the same holds once the second commit has
failed and reset `savingGrade`; and a further click on the first row then
starts a second commit for the same key. -/
theorem save_enabled_while_commit_in_flight :
    (Page.initial.run [.change "s1" "4", .change "s2" "3", .click "s1",
        .click "s2"]).committing "s1-general" = true ∧
    saveDisabled (Page.initial.run [.change "s1" "4", .change "s2" "3", .click "s1",
        .click "s2"]).ledger (rowKey "s1" "general") = false ∧
    (Page.initial.run [.change "s1" "4", .change "s2" "3", .click "s1", .click "s2",
        .postSettled 1 false]).committing "s1-general" = true ∧
    saveDisabled (Page.initial.run [.change "s1" "4", .change "s2" "3", .click "s1",
        .click "s2", .postSettled 1 false]).ledger (rowKey "s1" "general") = false ∧
    ((Page.initial.run [.change "s1" "4", .change "s2" "3", .click "s1", .click "s2",
        .click "s1"]).inFlight.map InFlight.key) =
      ["s1-general", "s2-general", "s1-general"] := by
  have k1 : gradeKey "s1" (scopeArg "general") = "s1-general" := by decide
  have k2 : gradeKey "s2" (scopeArg "general") = "s2-general" := by decide
  have r1 : rowKey "s1" "general" = "s1-general" := by decide
  have r2 : rowKey "s2" "general" = "s2-general" := by decide
  simp [Page.run, Page.step, Page.initial, Ledger.initial, Page.committing, rowChange,
    handleGradeChange, saveDisabled, isEdited, isSaving, saveStarted, saveFailed,
    k1, k2, r1, r2, parseFloat_4, parseFloat_3, rejected_fin_4, rejected_fin_3]


/-! ## The average -/

/-- With no other call in flight, a click on an enabled save button followed
by the settling of its two requests leaves the ledger that `saveGrade` run
in one piece leaves. -/
theorem run_click_eq_saveGrade (c : String) (p : Page) (s : String) (d : List Grade)
    (hidle : p.inFlight = [])
    (hen : saveDisabled p.ledger (rowKey s p.selectedActivity) = false) :
    (p.run [.click s, .postSettled 0 true, .getSettled 0 (some d)]).ledger =
      (saveGrade c p.ledger s (scopeArg p.selectedActivity) (.refreshed d)).state ∧
    (p.run [.click s, .postSettled 0 true, .getSettled 0 none]).ledger =
      (saveGrade c p.ledger s (scopeArg p.selectedActivity) .getFails).state ∧
    (p.run [.click s, .postSettled 0 false]).ledger =
      (saveGrade c p.ledger s (scopeArg p.selectedActivity) .postFails).state := by
  by_cases hr : rejected (parseFloat
      (p.ledger.editedGrades (gradeKey s (scopeArg p.selectedActivity)))) = true
  · simp [Page.run, Page.step, saveGrade, hidle, hen, hr]
  · simp [Page.run, Page.step, saveGrade, hidle, hen, hr]

end TeacherGrades

namespace TeacherGrades

/-! ## The average and the overlay -/

theorem getStudentAverage_congr (st st' : Ledger) (s : String)
    (h : st.grades = st'.grades) : getStudentAverage st s = getStudentAverage st' s := by
  simp [getStudentAverage, h]

theorem grades_foldl_handleGradeChange (edits : List (String × Option String × String))
    (st : Ledger) :
    (edits.foldl (fun acc e => handleGradeChange acc e.1 e.2.1 e.2.2) st).grades
      = st.grades := by
  induction edits generalizing st with
  | nil => rfl
  | cons e t ih =>
    simp only [List.foldl]
    rw [ih]
    rfl

/-- Claim C11. The average does not depend on the overlay: over one
persisted grade list any two overlays, and any two values of `savingGrade`,
give every student the same `getStudentAverage`; and any sequence of
`handleGradeChange` calls, for any students, scopes and raw values, leaves
every student's average as it was. -/
theorem getStudentAverage_ignores_overlay (grades : List Grade) (s : String) :
    (∀ (ov1 ov2 : String → Option String) (sv1 sv2 : Option String),
      getStudentAverage { grades := grades, editedGrades := ov1, savingGrade := sv1 } s =
        getStudentAverage { grades := grades, editedGrades := ov2, savingGrade := sv2 } s) ∧
    (∀ (st : Ledger) (edits : List (String × Option String × String)),
      getStudentAverage
          (edits.foldl (fun acc e => handleGradeChange acc e.1 e.2.1 e.2.2) st) s =
        getStudentAverage st s) ∧
    (∀ (st : Ledger) (a : Option String) (raw : String),
      getStudentAverage (handleGradeChange st s a raw) s = getStudentAverage st s) := by
  refine ⟨?_, ?_, ?_⟩
  · intro ov1 ov2 sv1 sv2
    exact getStudentAverage_congr _ _ s rfl
  · intro st edits
    exact getStudentAverage_congr _ _ s (grades_foldl_handleGradeChange edits st)
  · intro st a raw
    exact getStudentAverage_congr _ _ s rfl

end TeacherGrades

namespace StudentActivities

/-! ## The submission index and the submit action -/

/-- Claim C12. `hasSubmission` returns `undefined` exactly when no
submission in the list has the activity identifier; otherwise it returns
a submission, the first one in list order whose `activity_id` equals the
identifier, also when later ones match as well. It is defined on every
list and identifier. -/
theorem hasSubmission_first_match (submissions : List Submission) (actId : String) :
    (hasSubmission submissions actId = none ↔
      ∀ s ∈ submissions, s.activity_id ≠ actId) ∧
    (∀ x, hasSubmission submissions actId = some x ↔
      x.activity_id = actId ∧ ∃ pre post, submissions = pre ++ x :: post ∧
        ∀ y ∈ pre, y.activity_id ≠ actId) ∧
    ((∃ s ∈ submissions, s.activity_id = actId) →
      ∃ x, hasSubmission submissions actId = some x) ∧
    (∀ x y : Submission, x.activity_id = actId → y.activity_id = actId →
      hasSubmission (x :: y :: submissions) actId = some x) := by
  refine ⟨?_, ?_, ?_, ?_⟩
  · simp [hasSubmission]
  · intro x
    simp [hasSubmission, List.find?_eq_some]
  · rintro ⟨s, hs, hm⟩
    cases h : hasSubmission submissions actId with
    | some x => exact ⟨x, rfl⟩
    | none =>
      simp [hasSubmission] at h
      exact absurd hm (h s hs)
  · intro x y hx _
    simp [hasSubmission, hx]

theorem renderRow_action_submit_iff (submissions : List Submission) (act : Activity)
    (statusNow now : Int) :
    (renderRow submissions act statusNow now).action = .submit ↔
      hasSubmission submissions act.id = none ∧
        getActivityStatus act.dates statusNow = .active := by
  unfold renderRow
  cases h : hasSubmission submissions act.id with
  | some x => simp
  | none =>
    by_cases hs : getActivityStatus act.dates statusNow = .active <;> simp [hs]

/-- Claim C13. The card of an activity offers the submit action exactly when
the activity has no submission and its status is `active`. An activity due
one day before the clock reading, with no start, is `expired` and is not
offered the action, with or without a submission; neither is any `upcoming`
or `expired` activity. -/
theorem submit_offered_iff (submissions : List Submission) (act : Activity)
    (statusNow now : Int) :
    ((renderRow submissions act statusNow now).action = .submit ↔
      hasSubmission submissions act.id = none ∧
        getActivityStatus act.dates statusNow = .active) ∧
    (∀ id title : String,
      getActivityStatus (⟨none, some (statusNow - msPerDay)⟩ : ActivityDates) statusNow
        = .expired ∧
      (renderRow submissions ⟨id, title, ⟨none, some (statusNow - msPerDay)⟩⟩
        statusNow now).action ≠ .submit ∧
      (renderRow [] ⟨id, title, ⟨none, some (statusNow - msPerDay)⟩⟩
        statusNow now).action = .statusBadge "Bloqueada (Vencida)") ∧
    (getActivityStatus act.dates statusNow = .upcoming →
      (renderRow submissions act statusNow now).action ≠ .submit) ∧
    (getActivityStatus act.dates statusNow = .expired →
      (renderRow submissions act statusNow now).action ≠ .submit) := by
  have hexp : getActivityStatus (⟨none, some (statusNow - msPerDay)⟩ : ActivityDates)
      statusNow = .expired := by
    simp [getActivityStatus, dateGt, msPerDay]
  refine ⟨renderRow_action_submit_iff submissions act statusNow now, ?_, ?_, ?_⟩
  · intro id title
    refine ⟨hexp, ?_, ?_⟩
    · rw [Ne, renderRow_action_submit_iff]
      rintro ⟨_, h⟩
      rw [hexp] at h
      cases h
    · simp [renderRow, hasSubmission, hexp, StatusKey.label]
  · intro h
    rw [Ne, renderRow_action_submit_iff, h]
    rintro ⟨_, h'⟩
    cases h'
  · intro h
    rw [Ne, renderRow_action_submit_iff, h]
    rintro ⟨_, h'⟩
    cases h'

end StudentActivities

namespace StudentActivities

/-! ## The submit dialog -/

theorem dropWhile_eq_nil_of_all {α : Type} (p : α → Bool) (l : List α)
    (h : ∀ x ∈ l.dropWhile p, p x = true) : l.dropWhile p = [] := by
  induction l with
  | nil => rfl
  | cons a t ih =>
    by_cases ha : p a = true
    · rw [List.dropWhile_cons_of_pos ha] at h ⊢
      exact ih h
    · rw [List.dropWhile_cons_of_neg ha] at h
      exact absurd (h a (List.mem_cons_self a t)) ha

theorem trim_eq_empty_iff (s : String) :
    trim s = "" ↔ ∀ c ∈ s.toList, TeacherGrades.isStrWhiteSpace c = true := by
  have hmk : ∀ l : List Char, String.mk l = "" ↔ l = [] := by
    intro l
    constructor
    · intro h
      exact congrArg String.data h
    · intro h
      rw [h]
  unfold trim
  rw [hmk, List.reverse_eq_nil_iff, List.dropWhile_eq_nil_iff]
  constructor
  · intro h
    have h1 : s.toList.dropWhile TeacherGrades.isStrWhiteSpace = [] := by
      apply dropWhile_eq_nil_of_all
      intro x hx
      exact h x (List.mem_reverse.mpr hx)
    exact List.dropWhile_eq_nil_iff.mp h1
  · intro h x hx
    have h1 : s.toList.dropWhile TeacherGrades.isStrWhiteSpace = [] :=
      List.dropWhile_eq_nil_iff.mpr h
    rw [h1] at hx
    simp at hx

/-- Claim C14. With the dialog open on an activity, `handleSubmit` sends a
submission to the service, for that activity and with the content and the
files as they are, exactly when the content is not blank after trimming or
at least one file is attached; the content is blank after trimming exactly
when each of its characters is white space. When the content is blank and no
file is attached it sends nothing and leaves the dialog, the typed content,
the file list and the `submitting` flag as they were. -/
theorem handleSubmit_sends_iff (st : SubmitState) (act : Activity) (reply : PostReply)
    (hopen : st.submitDialog = some act) :
    ((handleSubmit st reply).requests.head? =
        some (.postSubmissions act.id st.submitContent st.submitFiles) ↔
      trim st.submitContent ≠ "" ∨ st.submitFiles ≠ []) ∧
    ((handleSubmit st reply).requests = [] ↔
      trim st.submitContent = "" ∧ st.submitFiles = []) ∧
    (trim st.submitContent = "" ↔
      ∀ c ∈ st.submitContent.toList, TeacherGrades.isStrWhiteSpace c = true) ∧
    (trim st.submitContent = "" → st.submitFiles = [] →
      (handleSubmit st reply).state = st ∧ (handleSubmit st reply).requests = []) := by
  refine ⟨?_, ?_, trim_eq_empty_iff _, ?_⟩
  · by_cases hb : trim st.submitContent = "" ∧ st.submitFiles.length = 0
    · have hf : st.submitFiles = [] := List.length_eq_zero.mp hb.2
      simp [handleSubmit, hb.1, hf]
    · have hb' : ¬ (trim st.submitContent = "" ∧ st.submitFiles = []) := by
        rwa [← List.length_eq_zero]
      have hor : trim st.submitContent ≠ "" ∨ st.submitFiles ≠ [] := by
        by_contra hc
        push_neg at hc
        exact hb' hc
      cases reply <;> simp [handleSubmit, hb', hopen, hor]
  · by_cases hb : trim st.submitContent = "" ∧ st.submitFiles.length = 0
    · have hf : st.submitFiles = [] := List.length_eq_zero.mp hb.2
      simp [handleSubmit, hb.1, hf]
    · have hb' : ¬ (trim st.submitContent = "" ∧ st.submitFiles = []) := by
        rwa [← List.length_eq_zero]
      cases reply <;> simp [handleSubmit, hb', hopen]
  · intro hc hf
    simp [handleSubmit, hc, hf]

/-- Claim C14 at a dialog open on activity `a1`: with content made of blanks
and a line break and no file nothing is sent; with the content `hola` the
submission is sent. -/
theorem handleSubmit_sends_iff_witness :
    (⟨some ⟨"a1", "T", ⟨none, some 0⟩⟩, "  \n", [], false⟩ : SubmitState).submitDialog
      = some ⟨"a1", "T", ⟨none, some 0⟩⟩ ∧
    (handleSubmit ⟨some ⟨"a1", "T", ⟨none, some 0⟩⟩, "  \n", [], false⟩ .ok).requests = [] ∧
    (handleSubmit ⟨some ⟨"a1", "T", ⟨none, some 0⟩⟩, "hola", [], false⟩ .ok).requests.head?
      = some (.postSubmissions "a1" "hola" []) :=
  ⟨rfl,
   (handleSubmit_sends_iff ⟨some ⟨"a1", "T", ⟨none, some 0⟩⟩, "  \n", [], false⟩
      ⟨"a1", "T", ⟨none, some 0⟩⟩ .ok rfl).2.1.mpr ⟨by decide, rfl⟩,
   (handleSubmit_sends_iff ⟨some ⟨"a1", "T", ⟨none, some 0⟩⟩, "hola", [], false⟩
      ⟨"a1", "T", ⟨none, some 0⟩⟩ .ok rfl).1.mpr (Or.inl (by decide))⟩

end StudentActivities

namespace StudentGrades

open StudentActivities (Activity)

/-! ## Name resolvers -/

theorem find?_of_first_match {α : Type} (p : α → Bool) (l pre post : List α) (x : α)
    (hl : l = pre ++ x :: post) (hx : p x = true) (hpre : ∀ y ∈ pre, p y = false) :
    l.find? p = some x := by
  rw [List.find?_eq_some]
  exact ⟨hx, pre, post, hl, fun y hy => by simp [hpre y hy]⟩

/-- Claim C15, as stated, fails for a matching record whose name is empty:
the resolver returns the fallback, not the course's name or the activity's
title. -/
theorem resolvers_fall_back_on_empty_name :
    getCourseName [⟨"c1", ""⟩] "c1" = "-" ∧
    getCourseName [⟨"c1", ""⟩] "c1" ≠ (⟨"c1", ""⟩ : Course).name ∧
    getActivityName [⟨"a1", "", ⟨none, some 0⟩⟩] (some "a1") = "Nota General" ∧
    getActivityName [⟨"a1", "", ⟨none, some 0⟩⟩] (some "a1")
      ≠ (⟨"a1", "", ⟨none, some 0⟩⟩ : Activity).title := by
  decide

/-- Claim C15, amended. Both resolvers are defined on every list and
identifier. `getCourseName` returns the name of the first course with the
identifier when that name is not empty, and `-` when no course has the
identifier or that name is empty. `getActivityName` returns the title of the
first activity with the identifier when that title is not empty, and
`Nota General` when no activity has it, when the reference is `null`, or
when that title is empty. -/
theorem resolvers_fall_back (courses : List Course) (activities : List Activity)
    (id : String) :
    (∀ pre c post, courses = pre ++ c :: post → c.id = id → (∀ y ∈ pre, y.id ≠ id) →
      getCourseName courses id = if c.name = "" then "-" else c.name) ∧
    ((∀ c ∈ courses, c.id ≠ id) → getCourseName courses id = "-") ∧
    (∀ pre a post, activities = pre ++ a :: post → a.id = id → (∀ y ∈ pre, y.id ≠ id) →
      getActivityName activities (some id) =
        if a.title = "" then "Nota General" else a.title) ∧
    ((∀ a ∈ activities, a.id ≠ id) → getActivityName activities (some id) = "Nota General") ∧
    getActivityName activities none = "Nota General" := by
  refine ⟨?_, ?_, ?_, ?_, ?_⟩
  · intro pre c post hl hc hpre
    have hf : courses.find? (fun c => c.id == id) = some c :=
      find?_of_first_match _ courses pre post c hl (by simp [hc])
        (fun y hy => by simp [hpre y hy])
    simp only [getCourseName, hf, Option.map_some', orFallback]
  · intro h
    have hf : courses.find? (fun c => c.id == id) = none := by
      rw [List.find?_eq_none]
      intro x hx
      simp [h x hx]
    unfold getCourseName
    rw [hf]
    rfl
  · intro pre a post hl ha hpre
    have hf : activities.find? (fun a => some a.id == some id) = some a :=
      find?_of_first_match _ activities pre post a hl (by simp [ha])
        (fun y hy => by simp [hpre y hy])
    simp only [getActivityName, hf, Option.map_some', orFallback]
  · intro h
    have hf : activities.find? (fun a => some a.id == some id) = none := by
      rw [List.find?_eq_none]
      intro x hx
      simp [h x hx]
    unfold getActivityName
    rw [hf]
    rfl
  · have hf : activities.find? (fun a => some a.id == (none : Option String)) = none := by
      rw [List.find?_eq_none]
      intro x _
      simp
    unfold getActivityName
    rw [hf]
    rfl

end StudentGrades

namespace StudentActivities

/-! ## Day counts -/

end StudentActivities

namespace StudentActivities

end StudentActivities

namespace TeacherGrades

/-! ## Injectivity of the ledger key -/

end TeacherGrades
